import Mathlib

/-!
Shallow embedding of src/capture_heap_dumps.py (class JmapHeapDumpCapture).
External tools (javac, java, jmap) and the operating system are modelled by
outcome parameters, the filesystem by the list of existing paths, and the
JSON side files (results.json, .heap_dump_metadata.json) by their parsed
contents.  Function names follow the Python method names.
-/

namespace CaptureHeapDumps

/-- Association-list lookup keyed by strings, modelling Python dict lookup. -/
def lookupA {α : Type} : List (String × α) → String → Option α
  | [], _ => none
  | (k, v) :: rest, key => if k = key then some v else lookupA rest key

/-- Association-list update, modelling Python dict assignment (overwrite the
existing key in place, else append). -/
def setA {α : Type} : List (String × α) → String → α → List (String × α)
  | [], key, v => [(key, v)]
  | (k, w) :: rest, key, v =>
    if k = key then (k, v) :: rest else (k, w) :: setA rest key v

/-- One per-test record of results.json's tests mapping, as written by
run_tests.  Fields that Python reads with dict.get are Options. -/
structure TestRecord where
  name : String
  file : String
  source_hash : Option String
  pid : Option Nat
  heap_dump : Option String
  histogram : Option String
  status : Option String
deriving DecidableEq, Repr

/-- The parsed contents of results.json (the run ledger): the tests mapping.
The timestamp field is presentation only and is not modelled. -/
structure Results where
  tests : List (String × TestRecord)
deriving DecidableEq, Repr

/-- One entry of the compilation metadata cache (.heap_dump_metadata.json);
only the stored hash participates in decisions. -/
structure MetaEntry where
  hash : Option String
deriving DecidableEq, Repr

/-- The parsed contents of the compilation metadata cache: the files mapping. -/
structure Metadata where
  files : List (String × MetaEntry)
deriving DecidableEq, Repr

/-- The state of a persisted JSON side file on disk: absent, present but
unparseable (json.load raises), or present with parsed contents. -/
inductive DiskFile (α : Type)
  | absent
  | corrupt
  | valid (a : α)

/-- load_results: if results.json exists, try json.load and swallow any
exception; an absent or unreadable file yields the empty tests mapping. -/
def load_results : DiskFile Results → Results
  | DiskFile.absent => ⟨[]⟩
  | DiskFile.corrupt => ⟨[]⟩
  | DiskFile.valid r => r

/-- load_metadata: if the metadata cache exists, try json.load under a bare
except; an absent or unreadable file yields the empty files mapping. -/
def load_metadata : DiskFile Metadata → Metadata
  | DiskFile.absent => ⟨[]⟩
  | DiskFile.corrupt => ⟨[]⟩
  | DiskFile.valid m => m

/-- needs_heap_dump(name, java_file): the capture-staleness check.  The
current source fingerprint (compute_file_hash of java_file) is passed in as
currentHash and disk existence as fsHas.  Mirrors the Python line by line:
absent name, prior status not success, hash mismatch, or missing (falsy or
nonexistent) heap_dump path each return True. -/
def needs_heap_dump (previous : Results) (name : String) (currentHash : String)
    (fsHas : String → Bool) : Bool :=
  match lookupA previous.tests name with
  | none => true
  | some prevTest =>
    if prevTest.status ≠ some "success" then true
    else if prevTest.source_hash ≠ some currentHash then true
    else
      match prevTest.heap_dump with
      | none => true
      | some p => if p = "" then true else !fsHas p

/-- needs_compilation(java_file): the build-staleness check.  classExists is
whether the expected .class output exists on disk, currentHash the source
fingerprint, and fileKey the java file's name (the metadata key). -/
def needs_compilation (metadata : Metadata) (fileKey : String)
    (classExists : Bool) (currentHash : String) : Bool :=
  if !classExists then true
  else
    match lookupA metadata.files fileKey with
    | none => true
    | some entry => decide (some currentHash ≠ entry.hash)

/-- Single-star glob match: a pattern pre ++ "*" ++ suf matches s iff pre is
a prefix of s, suf is a suffix of s, and they do not overlap.  This is the
semantics of Path.glob for the three patterns used by
cleanup_previous_outputs, each of which contains exactly one star. -/
def globMatch1 (pre suf s : String) : Bool :=
  pre.data.isPrefixOf s.data && suf.data.isSuffixOf s.data &&
    decide (pre.data.length + suf.data.length ≤ s.data.length)

/-- Whether a filename in the output directory is matched by any of the three
glob patterns used by cleanup_previous_outputs for a test name. -/
def matchesCleanup (name fname : String) : Bool :=
  globMatch1 (name ++ "_") ".hprof" fname ||
  globMatch1 (name ++ "_") ".hprof.gz" fname ||
  globMatch1 (name ++ "_") "_histogram.txt" fname

/-- cleanup_previous_outputs(name): unlink every file of the output directory
matching one of the three patterns (individual unlink failures are swallowed;
a successful pass removes exactly the matching files). -/
def cleanup_previous_outputs (name : String) (fs : List String) : List String :=
  fs.filter (fun f => !matchesCleanup name f)

/-- Filesystem events performed (or caused) by capture_heap_dump, in program
order: the jmap child writing the raw dump file, the gzip stream being fully
and successfully written, a partial gzip file left by a failed compression,
and the unlink of the raw file. -/
inductive FsEvent
  | jmapWriteRaw (path : String)
  | gzWritten (path : String)
  | gzPartial (path : String)
  | unlinkRaw (path : String)
deriving DecidableEq, Repr

/-- Outcome of the external jmap -dump invocation: whether subprocess.run
raised TimeoutExpired, the exit code otherwise, whether jmap created the raw
dump file on disk, and whether the gzip compression step raised. -/
structure DumpEnv where
  timeout : Bool
  exitCode : Nat
  createsRaw : Bool
  compressFails : Bool
deriving DecidableEq, Repr

/-- capture_heap_dump(name, pid): invoke jmap -dump to the raw path; on exit
code 0 with the raw file present, stream-compress it to the .gz path, unlink
the raw file and return the .gz path; on timeout, nonzero exit or a missing
raw file return None.  The exception handler performs no cleanup, so a raw
file written by jmap stays on disk on the failure paths.  Returns the result,
the filesystem after the call, and the event trace. -/
def capture_heap_dump (o : DumpEnv) (pid : Option Nat) (fs : List String)
    (raw gz : String) : Option String × List String × List FsEvent :=
  match pid with
  | none => (none, fs, [])
  | some _ =>
    let fs1 := if o.createsRaw then raw :: fs else fs
    let ev1 : List FsEvent := if o.createsRaw then [FsEvent.jmapWriteRaw raw] else []
    if o.timeout then (none, fs1, ev1)
    else if o.exitCode == 0 && fs1.contains raw then
      if o.compressFails then (none, gz :: fs1, ev1 ++ [FsEvent.gzPartial gz])
      else (some gz, gz :: fs1.filter (fun p => p != raw),
            ev1 ++ [FsEvent.gzWritten gz, FsEvent.unlinkRaw raw])
    else (none, fs1, ev1)

/-- Outcome of the external jmap -histo invocation. -/
structure HistEnv where
  timeout : Bool
  exitCode : Nat
deriving DecidableEq, Repr

/-- capture_heap_histogram(name, pid): invoke jmap -histo; on exit code 0
write its stdout to the histogram file and return that path, else None. -/
def capture_heap_histogram (o : HistEnv) (pid : Option Nat) (fs : List String)
    (histPath : String) : Option String × List String :=
  match pid with
  | none => (none, fs)
  | some _ =>
    if o.timeout then (none, fs)
    else if o.exitCode == 0 then (some histPath, histPath :: fs)
    else (none, fs)

/-- Python truthiness of an optional integer (if pid: — None and 0 are
falsy; real OS pids are nonzero). -/
def truthy : Option Nat → Bool
  | none => false
  | some n => n != 0

/-- Outcome of the external steps for one test target: whether
subprocess.Popen succeeded, the child's pid, whether the child is still
running after the stabilization sleep, the timestamp string used in the dump
file name, and the jmap outcomes. -/
structure TargetOutcome where
  popenOk : Bool
  pid : Nat
  alive : Bool
  stamp : String
  dumpEnv : DumpEnv
  histEnv : HistEnv
deriving Repr

/-- One test configuration: logical name and java source path. -/
structure Config where
  name : String
  file : String
deriving DecidableEq, Repr

/-- The environment of one orchestration pass: availability of the required
tools, source fingerprints, per-file compile outcomes, on-disk state of the
compiled .class outputs, the parsed compilation metadata cache, the initial
output-directory filesystem, and the per-target runtime outcomes. -/
structure Env where
  missingTools : Bool
  srcHash : String → String
  srcExists : String → Bool
  classExists : String → Bool
  compileRaises : String → Bool
  compileExit : String → Nat
  metadata : Metadata
  fs0 : List String
  outcome : String → TargetOutcome

/-- compile_java_file: skip when the source is missing (warning, False) or
when needs_compilation is false (True without invoking javac); otherwise
invoke javac, treat a raised exception or nonzero exit as failure, and on
success record the fresh hash in the metadata cache.  Returns (success,
updated metadata, whether javac was invoked). -/
def compile_java_file (env : Env) (md : Metadata) (file : String) :
    Bool × Metadata × Bool :=
  if !env.srcExists file then (false, md, false)
  else if !needs_compilation md file (env.classExists file) (env.srcHash file) then
    (true, md, false)
  else if env.compileRaises file then (false, md, true)
  else if env.compileExit file != 0 then (false, md, true)
  else (true, ⟨setA md.files file ⟨some (env.srcHash file)⟩⟩, true)

/-- compile_all's loop body: compile each java file in order, threading the
metadata cache, counting successes. -/
def compile_count (env : Env) (md : Metadata) : List String → Nat × Metadata
  | [] => (0, md)
  | f :: rest =>
    let r := compile_java_file env md f
    let out := compile_count env r.2.1 rest
    ((if r.1 then 1 else 0) + out.1, out.2)

/-- compile_all: returns False when there are no java files, else compiles
every file (a failure does not stop the loop) and returns whether every file
compiled successfully (success_count == len(java_files)). -/
def compile_all (env : Env) (md : Metadata) (files : List String) : Bool :=
  !files.isEmpty && ((compile_count env md files).1 == files.length)

/-- Events of one orchestration pass: a managed process was started (Popen
succeeded, the process was registered in self.processes), and
terminate_process was called for a name. -/
inductive RunEvent
  | spawn (name : String)
  | terminate (name : String)
deriving DecidableEq, Repr

/-- Python dict key insertion order for self.processes: re-assigning an
existing key keeps it, a new key is appended. -/
def insertKey (n : String) (l : List String) : List String :=
  if n ∈ l then l else l ++ [n]

/-- The base of the dump artifact file name: name_pid_timestamp. -/
def dumpBase (name : String) (pid : Nat) (stamp : String) : String :=
  name ++ "_" ++ Nat.repr pid ++ "_" ++ stamp

/-- Result of processing one target inside run_tests: the recorded
TestRecord, the filesystem, the registered process names, and the events. -/
structure TargetOut where
  record : TestRecord
  fs : List String
  procs : List String
  events : List RunEvent
deriving Repr

/-- One iteration of the run_tests loop for one config: skip (carrying the
previous record forward) when needs_heap_dump is false; otherwise purge the
prior artifacts, start the program (run_program registers the process as soon
as Popen succeeds, then sleeps and polls), and if the process is live capture
the dump and the histogram and derive the status, else record failed. -/
def runTarget (env : Env) (previous : Results) (cfg : Config)
    (fs procs : List String) : TargetOut :=
  if needs_heap_dump previous cfg.name (env.srcHash cfg.file)
      (fun p => fs.contains p) then
    let o := env.outcome cfg.name
    let procs' := if o.popenOk then insertKey cfg.name procs else procs
    let evs : List RunEvent := if o.popenOk then [RunEvent.spawn cfg.name] else []
    let fs1 := cleanup_previous_outputs cfg.name fs
    let pid : Option Nat := if o.popenOk && o.alive then some o.pid else none
    if truthy pid then
      let base := dumpBase cfg.name o.pid o.stamp
      let d := capture_heap_dump o.dumpEnv pid fs1 (base ++ ".hprof") (base ++ ".hprof.gz")
      let h := capture_heap_histogram o.histEnv pid d.2.1
        (cfg.name ++ "_" ++ Nat.repr o.pid ++ "_histogram.txt")
      ⟨{ name := cfg.name, file := cfg.file,
         source_hash := some (env.srcHash cfg.file), pid := pid,
         heap_dump := d.1, histogram := h.1,
         status := some (if d.1.isSome then "success" else "partial") },
       h.2, procs', evs⟩
    else
      ⟨{ name := cfg.name, file := cfg.file,
         source_hash := some (env.srcHash cfg.file), pid := none,
         heap_dump := none, histogram := none, status := some "failed" },
       fs1, procs', evs⟩
  else
    ⟨(lookupA previous.tests cfg.name).getD
       ⟨"", "", none, none, none, none, none⟩, fs, procs, []⟩

/-- Accumulated result of the run_tests loop. -/
structure TestsOut where
  results : List (String × TestRecord)
  fs : List String
  procs : List String
  events : List RunEvent
deriving Repr

/-- run_tests: iterate the targets in order, threading the output-directory
filesystem and the process registry. -/
def run_tests (env : Env) (previous : Results) :
    List Config → List String → List String → TestsOut
  | [], fs, procs => ⟨[], fs, procs, []⟩
  | cfg :: rest, fs, procs =>
    let st := runTarget env previous cfg fs procs
    let out := run_tests env previous rest st.fs st.procs
    ⟨(cfg.name, st.record) :: out.results, out.fs, out.procs,
     st.events ++ out.events⟩

/-- The reasons run can end without reaching run_tests: check_requirements
calls sys.exit on a missing tool, and a compile_all failure returns early. -/
inductive RunAbort
  | missingTools
  | compileFailed
deriving DecidableEq, Repr

/-- What one orchestration pass produces: the run_tests results or the abort
reason, the registered process names, and the full event trace. -/
structure RunOut where
  result : Except RunAbort Results
  processes : List String
  events : List RunEvent
deriving Repr

/-- terminate_all: call terminate_process once for each registered process
name, in registration order. -/
def terminate_all (procs : List String) : List RunEvent :=
  procs.map RunEvent.terminate

/-- run: check_requirements, compile_all, run_tests inside a try whose
finally always runs terminate_all (and cleanup_class_files) on every exit
path, including the sys.exit and early-return paths, before the pass
returns. -/
def run (env : Env) (previous : Results) (files : List String)
    (configs : List Config) : RunOut :=
  if env.missingTools then ⟨Except.error RunAbort.missingTools, [], terminate_all []⟩
  else if compile_all env env.metadata files then
    let t := run_tests env previous configs env.fs0 []
    ⟨Except.ok ⟨t.results⟩, t.procs, t.events ++ terminate_all t.procs⟩
  else ⟨Except.error RunAbort.compileFailed, [], terminate_all []⟩

/-- Signals sent by terminate_process to the process group. -/
inductive Sig
  | sigterm
  | sigkill
deriving DecidableEq, Repr

/-- The Python exceptions the terminate_process body can raise: os.getpgid
on a dead process raises ProcessLookupError, os.killpg can raise OSError,
and Popen.wait(timeout) raises subprocess.TimeoutExpired. -/
inductive PyExc
  | processLookup
  | osError
  | timeoutExpired
deriving DecidableEq, Repr

/-- Outcomes of the OS calls made while terminating one process: whether the
two getpgid calls succeed, whether the two killpg calls succeed, and whether
the two waits time out. -/
structure TermEnv where
  getpgidOk : Bool
  killTermOk : Bool
  waitTimeout : Bool
  getpgid2Ok : Bool
  killKillOk : Bool
  wait2Timeout : Bool
deriving DecidableEq, Repr

/-- Observable effect of one terminate_process call: the signals sent to the
process group, in order, and the number of warnings logged. -/
structure TermOut where
  signals : List Sig
  warnings : Nat
deriving DecidableEq, Repr

/-- The body of terminate_process's outer try: os.killpg(os.getpgid(pid),
SIGTERM) then process.wait(timeout=5).  An error carries the signals already
sent when it was raised. -/
def term_try (e : TermEnv) : Except (PyExc × List Sig) (List Sig) :=
  if !e.getpgidOk then Except.error (PyExc.processLookup, [])
  else if !e.killTermOk then Except.error (PyExc.osError, [])
  else if e.waitTimeout then Except.error (PyExc.timeoutExpired, [Sig.sigterm])
  else Except.ok [Sig.sigterm]

/-- The forced-kill body inside the TimeoutExpired handler:
os.killpg(os.getpgid(pid), SIGKILL) then process.wait(timeout=2). -/
def term_forced (e : TermEnv) : Except (PyExc × List Sig) (List Sig) :=
  if !e.getpgid2Ok then Except.error (PyExc.processLookup, [])
  else if !e.killKillOk then Except.error (PyExc.osError, [])
  else if e.wait2Timeout then Except.error (PyExc.timeoutExpired, [Sig.sigkill])
  else Except.ok [Sig.sigkill]

/-- terminate_process(name): return immediately when the name was never
started (not in self.pids); otherwise run the escalation under the handlers
the Python code installs — except subprocess.TimeoutExpired runs the forced
kill whose own bare except swallows everything, and except Exception logs one
warning.  The Except return type records whether any exception escapes. -/
def terminate_process (e : TermEnv) (pids : List String) (name : String) :
    Except PyExc TermOut :=
  if name ∈ pids then
    match term_try e with
    | Except.ok sigs => Except.ok ⟨sigs, 0⟩
    | Except.error (PyExc.timeoutExpired, sigs) =>
      match term_forced e with
      | Except.ok s2 => Except.ok ⟨sigs ++ s2, 0⟩
      | Except.error (_, s2) => Except.ok ⟨sigs ++ s2, 0⟩
    | Except.error (_, sigs) => Except.ok ⟨sigs, 1⟩
  else Except.ok ⟨[], 0⟩

/-- The spec's reading of the missing-dump condition: the prior record's
dump artifact path no longer exists on disk (a record without a stored path
has no artifact on disk). -/
def dumpArtifactGone (r : TestRecord) (fsHas : String → Bool) : Prop :=
  match r.heap_dump with
  | none => True
  | some p => p = "" ∨ fsHas p = false

/-- The spec's wording of isCaptureStale(name, path, previousLedger): the
name is absent from the previous ledger, or the prior record's status was
not success, or its fingerprint differs from the current file's fingerprint,
or its dump artifact path no longer exists on disk.  Stated from the spec,
to be compared with needs_heap_dump. -/
def isCaptureStaleSpec (previous : Results) (name hash : String)
    (fsHas : String → Bool) : Prop :=
  lookupA previous.tests name = none ∨
  ∃ r, lookupA previous.tests name = some r ∧
    (r.status ≠ some "success" ∨ r.source_hash ≠ some hash ∨
     dumpArtifactGone r fsHas)

/-- Concrete pass environment in which T1.java fails to compile while
T2.java compiles fine and every runtime step would succeed. -/
def envOneCompileFails : Env :=
  { missingTools := false
    srcHash := fun _ => "h"
    srcExists := fun _ => true
    classExists := fun _ => false
    compileRaises := fun _ => false
    compileExit := fun f => if f = "T1.java" then 1 else 0
    metadata := ⟨[]⟩
    fs0 := []
    outcome := fun _ =>
      { popenOk := true, pid := 7, alive := true, stamp := "s"
        dumpEnv := ⟨false, 0, true, false⟩, histEnv := ⟨false, 0⟩ } }

/-- Concrete pass environment in which every target compiles and spawns but
both jmap invocations (dump and histogram) exit nonzero. -/
def envBothCapturesFail : Env :=
  { missingTools := false
    srcHash := fun _ => "h"
    srcExists := fun _ => true
    classExists := fun _ => true
    compileRaises := fun _ => false
    compileExit := fun _ => 0
    metadata := ⟨[]⟩
    fs0 := []
    outcome := fun _ =>
      { popenOk := true, pid := 5, alive := true, stamp := "s"
        dumpEnv := ⟨false, 1, false, false⟩, histEnv := ⟨false, 1⟩ } }

/-- Concrete pass environment in which everything succeeds. -/
def envAllSucceed : Env :=
  { missingTools := false
    srcHash := fun _ => "h"
    srcExists := fun _ => true
    classExists := fun _ => true
    compileRaises := fun _ => false
    compileExit := fun _ => 0
    metadata := ⟨[("T.java", ⟨some "h"⟩)]⟩
    fs0 := []
    outcome := fun _ =>
      { popenOk := true, pid := 3, alive := true, stamp := "s"
        dumpEnv := ⟨false, 0, true, false⟩, histEnv := ⟨false, 0⟩ } }

/-- A previous-run record for target T: successful, fingerprint h, with its
compressed dump artifact recorded at T_3_s.hprof.gz. -/
def recT : TestRecord :=
  { name := "T", file := "T.java", source_hash := some "h", pid := some 3
    heap_dump := some "T_3_s.hprof.gz", histogram := some "T_3_histogram.txt"
    status := some "success" }

/-- A previous-run ledger holding only recT. -/
def prevT : Results := ⟨[("T", recT)]⟩

/-- Claim C9: for the distinct target names A and A_B, purging prior
artifacts for A also deletes A_B's dump, compressed-dump and histogram
artifact files, because cleanup_previous_outputs selects files by the glob
patterns name_*.hprof, name_*.hprof.gz and name_*_histogram.txt over the
shared output directory. -/
theorem C9_cleanup_glob_prefix_collision :
    ("A" : String) ≠ "A_B" ∧
    matchesCleanup "A" "A_B_321_20240101_120000.hprof" = true ∧
    matchesCleanup "A" "A_B_321_20240101_120000.hprof.gz" = true ∧
    matchesCleanup "A" "A_B_321_histogram.txt" = true ∧
    cleanup_previous_outputs "A"
      ["A_B_321_20240101_120000.hprof.gz", "A_B_321_20240101_120000.hprof",
       "A_B_321_histogram.txt", "keep.txt"] = ["keep.txt"] := by
  refine ⟨by decide, by decide, by decide, by decide, by decide⟩

/-- Claim C10: loading the persisted run ledger (results.json) or the build
cache (.heap_dump_metadata.json) never raises: an absent or unparseable file
yields the empty mapping, under which every target is stale — both
needs_heap_dump and needs_compilation return true for every input. -/
theorem C10_corrupt_side_files_behave_as_absent :
    load_results DiskFile.absent = ⟨[]⟩ ∧
    load_results DiskFile.corrupt = ⟨[]⟩ ∧
    load_metadata DiskFile.absent = ⟨[]⟩ ∧
    load_metadata DiskFile.corrupt = ⟨[]⟩ ∧
    (∀ (name h : String) (fsHas : String → Bool),
      needs_heap_dump (load_results DiskFile.corrupt) name h fsHas = true) ∧
    (∀ (key h : String) (classEx : Bool),
      needs_compilation (load_metadata DiskFile.corrupt) key classEx h = true) := by
  refine ⟨rfl, rfl, rfl, rfl, fun name h fsHas => rfl, fun key h classEx => ?_⟩
  cases classEx <;> rfl

/-- Claim C1 counterexample: in envOneCompileFails, T1's compile fails and
T2's own compile succeeds, yet run aborts with the compile failure: no
process is ever spawned and no target is recorded in the ledger,
contradicting the claim that targets after a compile failure are still
spawned, captured, and recorded. -/
theorem C1_counterexample_compile_failure_aborts :
    (run envOneCompileFails ⟨[]⟩ ["T1.java", "T2.java"]
        [⟨"T1", "T1.java"⟩, ⟨"T2", "T2.java"⟩]).result
      = Except.error RunAbort.compileFailed ∧
    (run envOneCompileFails ⟨[]⟩ ["T1.java", "T2.java"]
        [⟨"T1", "T1.java"⟩, ⟨"T2", "T2.java"⟩]).events = [] ∧
    (compile_java_file envOneCompileFails ⟨[]⟩ "T2.java").1 = true := by
  refine ⟨rfl, rfl, rfl⟩

/-- Claim C2 counterexample: in envBothCapturesFail the process is live but
both the dump capture and the histogram capture fail; the recorded status is
partial, not the failed the claim requires when the histogram also fails. -/
theorem C2_counterexample_status_never_failed_when_live :
    (runTarget envBothCapturesFail ⟨[]⟩ ⟨"T", "T.java"⟩ [] []).record.heap_dump
      = none ∧
    (runTarget envBothCapturesFail ⟨[]⟩ ⟨"T", "T.java"⟩ [] []).record.histogram
      = none ∧
    (runTarget envBothCapturesFail ⟨[]⟩ ⟨"T", "T.java"⟩ [] []).record.status
      = some "partial" ∧
    (runTarget envBothCapturesFail ⟨[]⟩ ⟨"T", "T.java"⟩ [] []).record.status
      ≠ some "failed" := by
  refine ⟨rfl, rfl, rfl, by decide⟩

/-- Claim C4 counterexample: jmap times out after having created the raw
dump file; capture_heap_dump returns None, but the raw uncompressed dump
file remains on disk, contradicting the claim that no raw uncompressed dump
file remains after a failed capture. -/
theorem C4_counterexample_raw_file_remains :
    (capture_heap_dump ⟨true, 0, true, false⟩ (some 9) []
        "T_9_s.hprof" "T_9_s.hprof.gz").1 = none ∧
    "T_9_s.hprof" ∈ (capture_heap_dump ⟨true, 0, true, false⟩ (some 9) []
        "T_9_s.hprof" "T_9_s.hprof.gz").2.1 := by
  refine ⟨rfl, by decide⟩

/-- Helper: a timed-out or nonzero-exit jmap dump invocation makes
capture_heap_dump return None. -/
theorem capture_heap_dump_fail_none (o : DumpEnv) (pid : Option Nat)
    (fs : List String) (raw gz : String)
    (h : o.timeout = true ∨ o.exitCode ≠ 0) :
    (capture_heap_dump o pid fs raw gz).1 = none := by
  unfold capture_heap_dump
  cases pid with
  | none => rfl
  | some n =>
    by_cases ht : o.timeout
    · simp [ht]
    · rcases h with h | h
      · exact absurd h ht
      · have hb : (o.exitCode == 0) = false := by simp [h]
        simp [ht, hb]

/-- Claim C4 (amended): when the jmap dump invocation times out or exits
nonzero, capture_heap_dump returns None, creates no compressed file and
deletes nothing itself — but it performs no cleanup either, so a raw dump
file created by the snapshot tool may remain on disk (the only path possibly
added to the filesystem is the raw dump path). -/
theorem C4_capture_failure_no_compress_no_unlink (o : DumpEnv)
    (pid : Option Nat) (fs : List String) (raw gz : String)
    (hfail : o.timeout = true ∨ o.exitCode ≠ 0)
    (hgz : gz ∉ fs) (hne : gz ≠ raw) :
    (capture_heap_dump o pid fs raw gz).1 = none ∧
    gz ∉ (capture_heap_dump o pid fs raw gz).2.1 ∧
    (∀ p, FsEvent.unlinkRaw p ∉ (capture_heap_dump o pid fs raw gz).2.2) ∧
    (∀ p, FsEvent.gzWritten p ∉ (capture_heap_dump o pid fs raw gz).2.2) ∧
    (∀ f ∈ (capture_heap_dump o pid fs raw gz).2.1, f ∈ fs ∨ f = raw) := by
  refine ⟨capture_heap_dump_fail_none o pid fs raw gz hfail, ?_, ?_, ?_, ?_⟩ <;>
  · unfold capture_heap_dump
    cases pid with
    | none =>
      simp [hgz]
      try exact fun f hf => Or.inl hf
    | some n =>
      have hexit : o.timeout = true ∨ (o.exitCode == 0) = false := by
        rcases hfail with h | h
        · exact Or.inl h
        · exact Or.inr (by simp [h])
      by_cases hc : o.createsRaw <;> by_cases ht : o.timeout <;>
        rcases hexit with he | he <;>
        simp_all

/-- Claim C4 witness: a concrete failed capture (exit code 2, no raw file
created) returns None, leaves the filesystem alone and performs no
compression or unlink. -/
theorem C4_capture_failure_witness :
    (capture_heap_dump ⟨false, 2, false, false⟩ (some 4) ["other"]
        "a.hprof" "a.hprof.gz").1 = none ∧
    "a.hprof.gz" ∉ (capture_heap_dump ⟨false, 2, false, false⟩ (some 4)
        ["other"] "a.hprof" "a.hprof.gz").2.1 ∧
    FsEvent.unlinkRaw "a.hprof" ∉ (capture_heap_dump ⟨false, 2, false, false⟩
        (some 4) ["other"] "a.hprof" "a.hprof.gz").2.2 ∧
    FsEvent.gzWritten "a.hprof.gz" ∉ (capture_heap_dump
        ⟨false, 2, false, false⟩ (some 4) ["other"]
        "a.hprof" "a.hprof.gz").2.2 :=
  have h := C4_capture_failure_no_compress_no_unlink
    ⟨false, 2, false, false⟩ (some 4) ["other"] "a.hprof" "a.hprof.gz"
    (Or.inr (by decide)) (by decide) (by decide)
  ⟨h.1, h.2.1, h.2.2.1 "a.hprof", h.2.2.2.1 "a.hprof.gz"⟩

/-- Claim C7: in capture_heap_dump the raw dump file is unlinked only after
the compressed file has been fully and successfully written: whenever the
event trace contains the unlink of the raw file, the trace contains the
completed gzip write strictly before it. -/
theorem C7_unlink_only_after_gz_fully_written (o : DumpEnv) (pid : Option Nat)
    (fs : List String) (raw gz : String)
    (h : FsEvent.unlinkRaw raw ∈ (capture_heap_dump o pid fs raw gz).2.2) :
    List.Sublist [FsEvent.gzWritten gz, FsEvent.unlinkRaw raw]
      (capture_heap_dump o pid fs raw gz).2.2 := by
  cases pid with
  | none => simp [capture_heap_dump] at h
  | some n =>
    simp only [capture_heap_dump] at h ⊢
    split_ifs at h ⊢ <;>
      first
        | (simp at h; done)
        | exact List.sublist_append_right _ _

/-- Claim C7 witness: a concrete successful capture unlinks the raw file and
its trace orders the completed gzip write before the unlink. -/
theorem C7_unlink_ordering_witness :
    FsEvent.unlinkRaw "r.hprof" ∈
      (capture_heap_dump ⟨false, 0, true, false⟩ (some 2) []
        "r.hprof" "r.hprof.gz").2.2 ∧
    List.Sublist [FsEvent.gzWritten "r.hprof.gz", FsEvent.unlinkRaw "r.hprof"]
      (capture_heap_dump ⟨false, 0, true, false⟩ (some 2) []
        "r.hprof" "r.hprof.gz").2.2 :=
  ⟨by decide, C7_unlink_only_after_gz_fully_written _ _ _ _ _ (by decide)⟩

/-- Helper: needs_heap_dump agrees with the spec's wording of
isCaptureStale. -/
theorem needs_heap_dump_iff_spec (previous : Results) (name hash : String)
    (fsHas : String → Bool) :
    needs_heap_dump previous name hash fsHas = true ↔
      isCaptureStaleSpec previous name hash fsHas := by
  unfold needs_heap_dump isCaptureStaleSpec
  cases h : lookupA previous.tests name with
  | none => simp [h]
  | some r =>
    simp only [h, Option.some.injEq, reduceCtorEq, false_or, exists_eq_left']
    by_cases h1 : r.status = some "success"
    · by_cases h2 : r.source_hash = some hash
      · simp only [h1, h2, ne_eq, not_true_eq_false, if_false, ite_false]
        cases hd : r.heap_dump with
        | none => simp [dumpArtifactGone, hd, h1, h2]
        | some p =>
          by_cases hp : p = ""
          · simp [dumpArtifactGone, hd, hp, h1, h2]
          · simp [dumpArtifactGone, hd, hp, h1, h2]
      · simp [h1, h2, dumpArtifactGone]
    · simp [h1, dumpArtifactGone]

/-- Claim C5: the capture-staleness check needs_heap_dump returns true
exactly when the name is absent from the previous ledger, or the prior
record's status is not success, or its fingerprint differs from the current
source fingerprint, or its dump artifact path no longer exists on disk; and
when it returns false the target is skipped — run_tests carries the previous
record forward unchanged, touching neither the filesystem nor the process
registry. -/
theorem C5_capture_staleness_iff_and_skip (env : Env) (previous : Results)
    (cfg : Config) (fs procs : List String) :
    (needs_heap_dump previous cfg.name (env.srcHash cfg.file)
        (fun p => fs.contains p) = true ↔
      isCaptureStaleSpec previous cfg.name (env.srcHash cfg.file)
        (fun p => fs.contains p)) ∧
    (needs_heap_dump previous cfg.name (env.srcHash cfg.file)
        (fun p => fs.contains p) = false →
      ∃ r, lookupA previous.tests cfg.name = some r ∧
        runTarget env previous cfg fs procs = ⟨r, fs, procs, []⟩) := by
  refine ⟨needs_heap_dump_iff_spec _ _ _ _, fun hns => ?_⟩
  have hlk : ∃ r, lookupA previous.tests cfg.name = some r := by
    cases h : lookupA previous.tests cfg.name with
    | none =>
      exfalso
      unfold needs_heap_dump at hns
      rw [h] at hns
      simp at hns
    | some r => exact ⟨r, rfl⟩
  obtain ⟨r, hr⟩ := hlk
  refine ⟨r, hr, ?_⟩
  unfold runTarget
  rw [hns]
  simp [hr]

/-- Claim C5 witness: with an intact successful prior record for T and its
dump artifact on disk, the staleness check is false and the previous record
is carried forward unchanged. -/
theorem C5_skip_carries_forward_witness :
    needs_heap_dump prevT "T" "h"
      (fun p => ["T_3_s.hprof.gz"].contains p) = false ∧
    lookupA prevT.tests "T" = some recT ∧
    runTarget envAllSucceed prevT ⟨"T", "T.java"⟩ ["T_3_s.hprof.gz"] []
      = ⟨recT, ["T_3_s.hprof.gz"], [], []⟩ := by
  obtain ⟨r, hr, hrt⟩ := (C5_capture_staleness_iff_and_skip envAllSucceed
    prevT ⟨"T", "T.java"⟩ ["T_3_s.hprof.gz"] []).2 (by decide)
  have hlk : lookupA prevT.tests "T" = some recT := by decide
  have hre : r = recT := Option.some.inj ((hr.symm.trans hlk))
  exact ⟨by decide, hlk, hre ▸ hrt⟩

/-- Claim C3: with the source fingerprint unchanged, deleting only the
compressed dump artifact makes needs_heap_dump true (recapture is forced)
while needs_compilation stays false and compile_java_file returns success
without invoking the compiler and without touching the metadata cache (no
rebuild is forced). -/
theorem C3_deleting_dump_recaptures_without_rebuild (env : Env)
    (previous : Results) (name : String) (md : Metadata) (fileKey : String)
    (r : TestRecord) (entry : MetaEntry) (dumpPath : String)
    (fsHas : String → Bool)
    (hr : lookupA previous.tests name = some r)
    (hst : r.status = some "success")
    (hsh : r.source_hash = some (env.srcHash fileKey))
    (hdp : r.heap_dump = some dumpPath)
    (hne : dumpPath ≠ "")
    (hdel : fsHas dumpPath = false)
    (he : lookupA md.files fileKey = some entry)
    (heh : entry.hash = some (env.srcHash fileKey))
    (hsrc : env.srcExists fileKey = true)
    (hcls : env.classExists fileKey = true) :
    needs_heap_dump previous name (env.srcHash fileKey) fsHas = true ∧
    needs_compilation md fileKey (env.classExists fileKey)
      (env.srcHash fileKey) = false ∧
    compile_java_file env md fileKey = (true, md, false) := by
  have hnc : needs_compilation md fileKey (env.classExists fileKey)
      (env.srcHash fileKey) = false := by
    unfold needs_compilation
    rw [hcls, he]
    simp [heh]
  refine ⟨?_, hnc, ?_⟩
  · unfold needs_heap_dump
    rw [hr]
    simp [hst, hsh, hdp, hne, hdel]
  · unfold compile_java_file
    rw [hsrc, hnc]
    simp

/-- Claim C3 witness: concretely deleting T's compressed dump (disk reports
nothing present) forces a recapture while the build step still skips javac. -/
theorem C3_recapture_without_rebuild_witness :
    needs_heap_dump prevT "T" (envAllSucceed.srcHash "T.java")
      (fun _ => false) = true ∧
    needs_compilation envAllSucceed.metadata "T.java"
      (envAllSucceed.classExists "T.java")
      (envAllSucceed.srcHash "T.java") = false ∧
    compile_java_file envAllSucceed envAllSucceed.metadata "T.java"
      = (true, envAllSucceed.metadata, false) :=
  C3_deleting_dump_recaptures_without_rebuild envAllSucceed prevT "T"
    envAllSucceed.metadata "T.java" recT ⟨some "h"⟩ "T_3_s.hprof.gz"
    (fun _ => false) (by decide) (by decide) (by decide) (by decide)
    (by decide) rfl (by decide) (by decide) (by decide) (by decide)

/-- Claim C2 (amended): for a target whose process reaches the verified-live
state and whose dump capture fails (jmap times out or exits nonzero), the
recorded status is partial regardless of whether the histogram capture
succeeds or fails — run_tests never records failed for a live process. -/
theorem C2_dump_failure_live_process_partial (env : Env) (previous : Results)
    (cfg : Config) (fs procs : List String)
    (hstale : needs_heap_dump previous cfg.name (env.srcHash cfg.file)
      (fun p => fs.contains p) = true)
    (hpo : (env.outcome cfg.name).popenOk = true)
    (hal : (env.outcome cfg.name).alive = true)
    (hpid : (env.outcome cfg.name).pid ≠ 0)
    (hfail : (env.outcome cfg.name).dumpEnv.timeout = true ∨
             (env.outcome cfg.name).dumpEnv.exitCode ≠ 0) :
    (runTarget env previous cfg fs procs).record.status = some "partial" := by
  have hdn : (capture_heap_dump (env.outcome cfg.name).dumpEnv
      (some (env.outcome cfg.name).pid)
      (cleanup_previous_outputs cfg.name fs)
      (dumpBase cfg.name (env.outcome cfg.name).pid
        (env.outcome cfg.name).stamp ++ ".hprof")
      (dumpBase cfg.name (env.outcome cfg.name).pid
        (env.outcome cfg.name).stamp ++ ".hprof.gz")).1 = none :=
    capture_heap_dump_fail_none _ _ _ _ _ hfail
  unfold runTarget
  rw [hstale]
  simp [hpo, hal, truthy, hpid, hdn]

/-- Claim C2 witness: in envBothCapturesFail (live process, dump and
histogram both fail) the recorded status is partial. -/
theorem C2_dump_failure_partial_witness :
    (runTarget envBothCapturesFail ⟨[]⟩ ⟨"T", "T.java"⟩ [] []).record.status
      = some "partial" :=
  C2_dump_failure_live_process_partial envBothCapturesFail ⟨[]⟩
    ⟨"T", "T.java"⟩ [] [] (by decide) (by decide) (by decide) (by decide)
    (Or.inr (by decide))

/-- Claim C1 (amended): a compile failure of any file (compile_all false)
aborts the pass: run returns the compile-failure abort before run_tests, so
no target is spawned, captured or recorded — the finally-clause cleanup runs
on an empty process registry. -/
theorem C1_compile_failure_aborts_pass (env : Env) (previous : Results)
    (files : List String) (configs : List Config)
    (hmt : env.missingTools = false)
    (hc : compile_all env env.metadata files = false) :
    (run env previous files configs).result
      = Except.error RunAbort.compileFailed ∧
    (run env previous files configs).processes = [] ∧
    (run env previous files configs).events = [] := by
  unfold run
  rw [hmt, hc]
  simp [terminate_all]

/-- Claim C1 witness: in envOneCompileFails compile_all is false and run
aborts with nothing spawned or recorded. -/
theorem C1_compile_failure_aborts_witness :
    (run envOneCompileFails ⟨[]⟩ ["T1.java", "T2.java"]
        [⟨"T1", "T1.java"⟩, ⟨"T2", "T2.java"⟩]).result
      = Except.error RunAbort.compileFailed ∧
    (run envOneCompileFails ⟨[]⟩ ["T1.java", "T2.java"]
        [⟨"T1", "T1.java"⟩, ⟨"T2", "T2.java"⟩]).processes = [] ∧
    (run envOneCompileFails ⟨[]⟩ ["T1.java", "T2.java"]
        [⟨"T1", "T1.java"⟩, ⟨"T2", "T2.java"⟩]).events = [] :=
  C1_compile_failure_aborts_pass envOneCompileFails ⟨[]⟩
    ["T1.java", "T2.java"] [⟨"T1", "T1.java"⟩, ⟨"T2", "T2.java"⟩]
    rfl (by decide)

/-- Claim C8: terminate_process never lets an exception escape (it always
returns ok), a name whose process was never started is a no-op (no signals,
no warnings), and an already-terminated process — os.getpgid raises
ProcessLookupError — produces exactly one logged warning, no signals and no
other observable effect. -/
theorem C8_terminate_never_raises (e : TermEnv) (pids : List String)
    (name : String) :
    (∃ out, terminate_process e pids name = Except.ok out) ∧
    (name ∉ pids → terminate_process e pids name = Except.ok ⟨[], 0⟩) ∧
    (name ∈ pids → e.getpgidOk = false →
      terminate_process e pids name = Except.ok ⟨[], 1⟩) := by
  refine ⟨?_, fun hn => by simp [terminate_process, hn], fun hn hg => ?_⟩
  · unfold terminate_process
    by_cases hm : name ∈ pids
    · simp only [hm, if_true, ite_true]
      cases htt : term_try e with
      | ok sigs => exact ⟨⟨sigs, 0⟩, rfl⟩
      | error pe =>
        obtain ⟨exc, sigs⟩ := pe
        cases exc with
        | processLookup => exact ⟨⟨sigs, 1⟩, rfl⟩
        | osError => exact ⟨⟨sigs, 1⟩, rfl⟩
        | timeoutExpired =>
          cases htf : term_forced e with
          | ok s2 => exact ⟨⟨sigs ++ s2, 0⟩, by simp [htf]⟩
          | error e2 =>
            obtain ⟨exc2, s2⟩ := e2
            exact ⟨⟨sigs ++ s2, 0⟩, by simp [htf]⟩
    · simp [hm]
  · unfold terminate_process term_try
    rw [hg]
    simp [hn]

/-- Claim C8 witness: terminating a never-started name is a no-op, and
terminating a started but already-dead process logs exactly one warning. -/
theorem C8_terminate_witness :
    terminate_process ⟨true, true, false, true, true, false⟩ ["p"] "q"
      = Except.ok ⟨[], 0⟩ ∧
    terminate_process ⟨false, true, false, true, true, false⟩ ["p"] "p"
      = Except.ok ⟨[], 1⟩ :=
  ⟨(C8_terminate_never_raises ⟨true, true, false, true, true, false⟩
      ["p"] "q").2.1 (by decide),
   (C8_terminate_never_raises ⟨false, true, false, true, true, false⟩
      ["p"] "p").2.2 (by decide) rfl⟩

/-- Helper: the process registry and event contribution of one run_tests
iteration — a process is registered and a spawn event emitted exactly when
the target is stale and Popen succeeded. -/
theorem runTarget_procs (env : Env) (previous : Results) (cfg : Config)
    (fs procs : List String) :
    (runTarget env previous cfg fs procs).procs =
      if needs_heap_dump previous cfg.name (env.srcHash cfg.file)
            (fun p => fs.contains p) && (env.outcome cfg.name).popenOk
      then insertKey cfg.name procs else procs := by
  simp only [runTarget]
  split_ifs <;> simp_all

/-- Helper: the spawn events of one run_tests iteration. -/
theorem runTarget_events (env : Env) (previous : Results) (cfg : Config)
    (fs procs : List String) :
    (runTarget env previous cfg fs procs).events =
      if needs_heap_dump previous cfg.name (env.srcHash cfg.file)
            (fun p => fs.contains p) && (env.outcome cfg.name).popenOk
      then [RunEvent.spawn cfg.name] else [] := by
  simp only [runTarget]
  split_ifs <;> simp_all

/-- Helper: over a run_tests pass with fresh distinct target names, the
registered processes are counted by the spawn events, run_tests emits no
terminate events, and each name is spawned at most once per occurrence in
the config list. -/
theorem run_tests_counts (env : Env) (previous : Results) (n : String) :
    ∀ (configs : List Config) (fs procs : List String),
      (∀ c ∈ configs, c.name ∉ procs) →
      (configs.map Config.name).Nodup →
      ((run_tests env previous configs fs procs).procs.count n
          = procs.count n
            + (run_tests env previous configs fs procs).events.count
                (RunEvent.spawn n)) ∧
      (run_tests env previous configs fs procs).events.count
          (RunEvent.terminate n) = 0 ∧
      (run_tests env previous configs fs procs).events.count (RunEvent.spawn n)
          ≤ (configs.map Config.name).count n
  | [], fs, procs, _, _ => by simp [run_tests]
  | cfg :: rest, fs, procs, hfresh, hnd => by
    have hp := runTarget_procs env previous cfg fs procs
    have he := runTarget_events env previous cfg fs procs
    have hcfg : cfg.name ∉ procs := hfresh cfg (List.mem_cons_self cfg rest)
    have hnotin : ∀ x ∈ rest, x.name ≠ cfg.name := by
      have := hnd
      simp [List.nodup_cons] at this
      exact this.1
    have hndr : (rest.map Config.name).Nodup := by
      have := hnd
      simp [List.nodup_cons] at this
      exact this.2
    by_cases hb : (needs_heap_dump previous cfg.name (env.srcHash cfg.file)
        (fun p => fs.contains p) && (env.outcome cfg.name).popenOk) = true
    · rw [hb] at hp he
      simp only [if_true, ite_true] at hp he
      have hins : insertKey cfg.name procs = procs ++ [cfg.name] := by
        simp [insertKey, hcfg]
      have hfresh' : ∀ c ∈ rest,
          c.name ∉ (runTarget env previous cfg fs procs).procs := by
        intro c hc
        rw [hp, hins]
        simp only [List.mem_append, List.mem_singleton]
        push_neg
        refine ⟨hfresh c (List.mem_cons_of_mem _ hc), ?_⟩
        intro hcn
        exact hnotin c hc hcn
      have IH := run_tests_counts env previous n rest
        (runTarget env previous cfg fs procs).fs
        (runTarget env previous cfg fs procs).procs hfresh' hndr
      simp only [run_tests]
      refine ⟨?_, ?_, ?_⟩
      · rw [IH.1, hp, hins, he]
        by_cases hcn : cfg.name = n <;>
          (simp [List.count_append, List.count_cons, hcn]; try omega)
      · rw [he]
        simp [List.count_append, IH.2.1]
      · rw [he]
        by_cases hcn : cfg.name = n <;>
          (simp [List.count_append, List.count_cons, hcn]; exact IH.2.2)
    · have hb' : (needs_heap_dump previous cfg.name (env.srcHash cfg.file)
          (fun p => fs.contains p) && (env.outcome cfg.name).popenOk)
          = false := by
        revert hb
        cases needs_heap_dump previous cfg.name (env.srcHash cfg.file)
          (fun p => fs.contains p) && (env.outcome cfg.name).popenOk <;> simp
      rw [hb'] at hp he
      simp only [if_false, ite_false, Bool.false_eq_true] at hp he
      have hfresh' : ∀ c ∈ rest,
          c.name ∉ (runTarget env previous cfg fs procs).procs := by
        intro c hc
        rw [hp]
        exact hfresh c (List.mem_cons_of_mem _ hc)
      have IH := run_tests_counts env previous n rest
        (runTarget env previous cfg fs procs).fs
        (runTarget env previous cfg fs procs).procs hfresh' hndr
      simp only [run_tests]
      refine ⟨?_, ?_, ?_⟩
      · rw [IH.1, hp, he]
        simp [List.count_append]
      · rw [he]
        simp [IH.2.1]
      · rw [he]
        simp only [List.nil_append, List.map_cons, List.count_cons]
        have := IH.2.2
        omega

/-- Helper: RunEvent.spawn is injective. -/
theorem spawn_injective : Function.Injective RunEvent.spawn := by
  intro a b h
  cases h
  rfl

/-- Helper: RunEvent.terminate is injective. -/
theorem terminate_injective : Function.Injective RunEvent.terminate := by
  intro a b h
  cases h
  rfl

/-- Claim C6: across a full orchestration pass with distinct target names,
whatever the outcome of every per-target step (build, spawn, stabilization,
dump capture, histogram capture, each possibly raising), the event trace of
run — whose finally clause invokes terminate_all on every exit path before
the pass returns — contains exactly one terminate per started process: the
number of terminate events for a name equals the number of spawn events for
it, and that number is at most one. -/
theorem C6_terminate_exactly_once_per_started_process (env : Env)
    (previous : Results) (files : List String) (configs : List Config)
    (n : String) (hnd : (configs.map Config.name).Nodup) :
    (run env previous files configs).events.count (RunEvent.terminate n)
      = (run env previous files configs).events.count (RunEvent.spawn n) ∧
    (run env previous files configs).events.count (RunEvent.spawn n) ≤ 1 := by
  unfold run
  by_cases hmt : env.missingTools
  · simp [hmt, terminate_all]
  · by_cases hca : compile_all env env.metadata files
    · simp only [hmt, hca, if_true, if_false, ite_true, ite_false,
        Bool.false_eq_true]
      have H := run_tests_counts env previous n configs env.fs0 []
        (by intro c hc; simp) hnd
      have hterm_map : ((run_tests env previous configs env.fs0 []).procs.map
          RunEvent.terminate).count (RunEvent.terminate n)
          = (run_tests env previous configs env.fs0 []).procs.count n :=
        List.count_map_of_injective _ _ terminate_injective _
      have hspawn_map : ((run_tests env previous configs env.fs0 []).procs.map
          RunEvent.terminate).count (RunEvent.spawn n) = 0 := by
        apply List.count_eq_zero_of_not_mem
        intro hmem
        obtain ⟨a, _, ha⟩ := List.mem_map.mp hmem
        exact RunEvent.noConfusion ha
      constructor
      · simp only [terminate_all, List.count_append, hterm_map, hspawn_map]
        have h0 := H.1
        simp only [List.count_nil] at h0
        rw [h0]
        have := H.2.1
        omega
      · simp only [terminate_all, List.count_append, hspawn_map]
        have hb := H.2.2
        have hle : (configs.map Config.name).count n ≤ 1 :=
          List.nodup_iff_count_le_one.mp hnd n
        omega
    · simp [hmt, hca, terminate_all]

/-- Claim C6 witness: a concrete one-target pass spawns T once and the trace
contains exactly one terminate event for it. -/
theorem C6_terminate_once_witness :
    (run envAllSucceed prevT ["T.java"] [⟨"U", "U.java"⟩]).events.count
        (RunEvent.terminate "U")
      = (run envAllSucceed prevT ["T.java"] [⟨"U", "U.java"⟩]).events.count
        (RunEvent.spawn "U") ∧
    (run envAllSucceed prevT ["T.java"] [⟨"U", "U.java"⟩]).events.count
        (RunEvent.spawn "U") ≤ 1 :=
  C6_terminate_exactly_once_per_started_process envAllSucceed prevT
    ["T.java"] [⟨"U", "U.java"⟩] "U" (by decide)

end CaptureHeapDumps
